import Mathlib

/-!
Shallow embedding of the remill/mcsema lifting core:
  * `src/remill/BC/Mask.h` (mask index search)
  * `src/mcsema/Arch/X86/Instr.cpp` (per-instruction X86 lifting engine)
Definitions are translated from the C++ source; theorems settle the
specification claims about them.
-/

namespace RemillMask

/-- Loop body of the four-argument `NthIndex` in `remill/BC/Mask.h`:
iterate `i` over the mask, incrementing `counter` (which starts at -1)
at each element equal to `val`, returning the index once `counter == n`. -/
def nthIndexGo (val : Bool) (n : Int) : List Bool → Nat → Int → Option Nat
  | [], _, _ => none
  | b :: rest, i, counter =>
    if b = val then
      if counter + 1 = n then some i
      else nthIndexGo val n rest (i + 1) (counter + 1)
    else nthIndexGo val n rest (i + 1) counter

/-- `NthIndex(mask, val, n, offset)` from `remill/BC/Mask.h` (lines 112-126):
returns `false` for negative `n`; otherwise scans for the zero-based n-th
index holding `val`, storing it in `offset` on success and preserving
`offset` on failure.  We return the pair (found, final offset). -/
def NthIndex (mask : List Bool) (val : Bool) (n : Int) (offset : Nat) :
    Bool × Nat :=
  if n < 0 then (false, offset)
  else
    match nthIndexGo val n mask 0 (-1) with
    | some i => (true, i)
    | none => (false, offset)

/-- Loop body of `GMask::Nth` in `remill/BC/Mask.h`: same scan as
`NthIndex`, written independently, returning an optional index. -/
def nthGo (val : Bool) (n : Int) : List Bool → Nat → Int → Option Nat
  | [], _, _ => none
  | b :: rest, i, counter =>
    if b = val then
      if counter + 1 = n then some i
      else nthGo val n rest (i + 1) (counter + 1)
    else nthGo val n rest (i + 1) counter

/-- `GMask::Nth(n, val)` from `remill/BC/Mask.h` (lines 173-187): empty
optional for negative `n`, otherwise the zero-based n-th index whose
element equals `val` (empty optional when there are fewer matches). -/
def GMaskNth (mask : List Bool) (n : Int) (val : Bool) : Option Nat :=
  if n < 0 then none
  else
    match nthGo val n mask 0 (-1) with
    | some i => some i
    | none => none

/-- Reference list of the indices of the mask whose element equals `val`,
in increasing order. -/
def matchIndices (val : Bool) : List Bool → List Nat
  | [] => []
  | b :: rest =>
    (if b = val then [0] else []) ++ (matchIndices val rest).map (· + 1)

end RemillMask

namespace McSemaX86

/-- The XED instruction-class tags that the lifting core inspects, plus
representatives of the surrounding enumeration.  Constructors are listed
in XED's enumeration order (alphabetical), so that the source's numeric
range comparisons (for example `XED_ICLASS_JB <= iclass &&
XED_ICLASS_JLE >= iclass`) are mirrored faithfully by `IClass.code`. -/
inductive IClass where
  | ADD
  | CALL_FAR
  | CALL_NEAR
  | HLT
  | INT
  | INT1
  | INT3
  | INTO
  | IRET
  | IRETD
  | IRETQ
  | JB
  | JBE
  | JCXZ
  | JECXZ
  | JL
  | JLE
  | JMP
  | JMP_FAR
  | JNB
  | JNBE
  | JNL
  | JNLE
  | JNO
  | JNP
  | JNS
  | JNZ
  | JO
  | JP
  | JRCXZ
  | JS
  | JZ
  | LOOP
  | LOOPE
  | LOOPNE
  | MOV
  | NOP
  | POP
  | PUSH
  | RET_FAR
  | RET_NEAR
  | SYSCALL
  | SYSCALL_AMD
  | SYSENTER
  | SYSEXIT
  | SYSRET
  | SYSRET_AMD
  | XABORT
  | XBEGIN
  | XEND
  | XOR
  deriving DecidableEq, Repr, Fintype

/-- Numeric code of an instruction class inside the XED enumeration,
used to mirror the source's range-based classification tests. -/
def IClass.code : IClass → Nat
  | .ADD => 0
  | .CALL_FAR => 1
  | .CALL_NEAR => 2
  | .HLT => 3
  | .INT => 4
  | .INT1 => 5
  | .INT3 => 6
  | .INTO => 7
  | .IRET => 8
  | .IRETD => 9
  | .IRETQ => 10
  | .JB => 11
  | .JBE => 12
  | .JCXZ => 13
  | .JECXZ => 14
  | .JL => 15
  | .JLE => 16
  | .JMP => 17
  | .JMP_FAR => 18
  | .JNB => 19
  | .JNBE => 20
  | .JNL => 21
  | .JNLE => 22
  | .JNO => 23
  | .JNP => 24
  | .JNS => 25
  | .JNZ => 26
  | .JO => 27
  | .JP => 28
  | .JRCXZ => 29
  | .JS => 30
  | .JZ => 31
  | .LOOP => 32
  | .LOOPE => 33
  | .LOOPNE => 34
  | .MOV => 35
  | .NOP => 36
  | .POP => 37
  | .PUSH => 38
  | .RET_FAR => 39
  | .RET_NEAR => 40
  | .SYSCALL => 41
  | .SYSCALL_AMD => 42
  | .SYSENTER => 43
  | .SYSEXIT => 44
  | .SYSRET => 45
  | .SYSRET_AMD => 46
  | .XABORT => 47
  | .XBEGIN => 48
  | .XEND => 49
  | .XOR => 50

/-- `lo <= iclass && iclass <= hi` on XED enumeration codes. -/
def IClass.between (c lo hi : IClass) : Bool :=
  lo.code ≤ c.code && c.code ≤ hi.code

/-- The XED operand kinds dispatched on by `Instr::LiftOperand`. -/
inductive OpName where
  | AGEN
  | MEM0
  | MEM1
  | IMM0
  | IMM0SIGNED
  | IMM1
  | IMM1_BYTES
  | PTR
  | REG0
  | REG1
  | REG2
  | REG3
  | RELBR
  | INVALID
  deriving DecidableEq, Repr, Fintype

/-- The XED registers the lifting core distinguishes: the instruction
pointer, the stack-pointer family, segment registers, representative
general-purpose and vector registers, and the invalid register. -/
inductive Reg where
  | INVALID
  | RIP
  | RSP
  | ESP
  | SP
  | SPL
  | RAX
  | EAX
  | AX
  | AL
  | RBX
  | RBP
  | RSI
  | RDI
  | RCX
  | ECX
  | RDX
  | GS
  | FS
  | CS
  | DS
  | ES
  | SS
  | MMX0
  | XMM0
  | XMM1
  | YMM0
  | ZMM0
  deriving DecidableEq, Repr, Fintype

/-- `xed_reg_enum_t2str`: canonical register name. -/
def Reg.str : Reg → String
  | .INVALID => "INVALID"
  | .RIP => "RIP"
  | .RSP => "RSP"
  | .ESP => "ESP"
  | .SP => "SP"
  | .SPL => "SPL"
  | .RAX => "RAX"
  | .EAX => "EAX"
  | .AX => "AX"
  | .AL => "AL"
  | .RBX => "RBX"
  | .RBP => "RBP"
  | .RSI => "RSI"
  | .RDI => "RDI"
  | .RCX => "RCX"
  | .ECX => "ECX"
  | .RDX => "RDX"
  | .GS => "GS"
  | .FS => "FS"
  | .CS => "CS"
  | .DS => "DS"
  | .ES => "ES"
  | .SS => "SS"
  | .MMX0 => "MMX0"
  | .XMM0 => "XMM0"
  | .XMM1 => "XMM1"
  | .YMM0 => "YMM0"
  | .ZMM0 => "ZMM0"

/-- `xed_get_register_width_bits64`: register width, in bits, in 64-bit
mode. -/
def Reg.width : Reg → Nat
  | .INVALID => 0
  | .RIP => 64
  | .RSP => 64
  | .ESP => 32
  | .SP => 16
  | .SPL => 8
  | .RAX => 64
  | .EAX => 32
  | .AX => 16
  | .AL => 8
  | .RBX => 64
  | .RBP => 64
  | .RSI => 64
  | .RDI => 64
  | .RCX => 64
  | .ECX => 32
  | .RDX => 64
  | .GS => 16
  | .FS => 16
  | .CS => 16
  | .DS => 16
  | .ES => 16
  | .SS => 16
  | .MMX0 => 64
  | .XMM0 => 128
  | .XMM1 => 128
  | .YMM0 => 256
  | .ZMM0 => 512

/-- `xed_get_largest_enclosing_register` in 64-bit mode: maps every
register to the widest register of its family. -/
def Reg.largestEnclosing : Reg → Reg
  | .INVALID => .INVALID
  | .RIP => .RIP
  | .RSP => .RSP
  | .ESP => .RSP
  | .SP => .RSP
  | .SPL => .RSP
  | .RAX => .RAX
  | .EAX => .RAX
  | .AX => .RAX
  | .AL => .RAX
  | .RBX => .RBX
  | .RBP => .RBP
  | .RSI => .RSI
  | .RDI => .RDI
  | .RCX => .RCX
  | .ECX => .RCX
  | .RDX => .RDX
  | .GS => .GS
  | .FS => .FS
  | .CS => .CS
  | .DS => .DS
  | .ES => .ES
  | .SS => .SS
  | .MMX0 => .MMX0
  | .XMM0 => .ZMM0
  | .XMM1 => .ZMM0
  | .YMM0 => .ZMM0
  | .ZMM0 => .ZMM0

/-- `IsVectorReg` (`Instr.cpp` lines 404-409): membership in the MMX,
XMM, YMM, or ZMM register files. -/
def Reg.isVector : Reg → Bool
  | .MMX0 => true
  | .XMM0 => true
  | .XMM1 => true
  | .YMM0 => true
  | .ZMM0 => true
  | _ => false

/-- The base/index/scale/displacement/segment fields that XED exposes
for one memory reference of a decoded instruction. -/
structure MemRef where
  seg : Reg
  base : Reg
  index : Reg
  scale : Nat
  disp : Int
  deriving DecidableEq, Repr

/-- One operand of the decoded instruction: its XED operand kind, its
visibility (`suppressed` marks `XED_OPVIS_SUPPRESSED`), its read and
write roles, and the concrete register XED decodes for it. -/
structure Operand where
  name : OpName
  suppressed : Bool
  read : Bool
  written : Bool
  reg : Reg
  deriving DecidableEq, Repr

/-- The read-only view of one decoded instruction consumed by the
lifting engine: the fields of `xed_decoded_inst_t` and `cfg::Instr`
that `Instr.cpp` reads. -/
structure Instr where
  iclass : IClass
  address : Nat
  size : Nat
  effAddrWidth : Nat
  machineModeBits : Nat
  operandWidth : Nat
  immWidthBits : Nat
  immIsSigned : Bool
  signedImm : Int
  unsignedImm : Nat
  secondImm : Nat
  branchDisp : Int
  iform : String
  operands : List Operand
  mem0 : MemRef
  mem1 : MemRef
  deriving DecidableEq, Repr

/-- `xed_inst_operand(xedi, 0)`'s operand kind: the kind of the first
decoded operand (`INVALID` when the operand list is empty). -/
def Instr.op0Name (i : Instr) : OpName :=
  match i.operands with
  | [] => .INVALID
  | o :: _ => o.name

/-- `Instr::NextPC`: `instr->address() + instr->size()` in unsigned
64-bit arithmetic. -/
def NextPC (i : Instr) : Nat :=
  (i.address + i.size) % 2 ^ 64

/-- Truncate an integer to `w` unsigned bits (the effect of building an
LLVM `ConstantInt` of width `w` from a 64-bit host value). -/
def toUN (w : Nat) (x : Int) : Nat :=
  (x % ((2 : Int) ^ w)).toNat

/-- Reinterpret an integer as an unsigned 64-bit value
(`static_cast<uintptr_t>`). -/
def toU64 (x : Int) : Nat :=
  toUN 64 x

/-- `Instr::IsError`: true only for the halt class. -/
def IsError (i : Instr) : Bool :=
  i.iclass = .HLT

/-- `Instr::IsDirectJump`: a near jump whose first operand is a
relative-branch displacement. -/
def IsDirectJump (i : Instr) : Bool :=
  i.iclass = .JMP && i.op0Name = .RELBR

/-- `Instr::IsIndirectJump`: a near jump with a non-relative first
operand, a far jump, or a transactional end/abort. -/
def IsIndirectJump (i : Instr) : Bool :=
  (i.iclass = .JMP && !(i.op0Name = .RELBR)) ||
  i.iclass = .JMP_FAR || i.iclass = .XEND || i.iclass = .XABORT

/-- `Instr::IsDirectFunctionCall`: a near call whose first operand is a
relative-branch displacement. -/
def IsDirectFunctionCall (i : Instr) : Bool :=
  i.iclass = .CALL_NEAR && i.op0Name = .RELBR

/-- `Instr::IsIndirectFunctionCall`: a near call with a non-relative
first operand, or a far call. -/
def IsIndirectFunctionCall (i : Instr) : Bool :=
  (i.iclass = .CALL_NEAR && !(i.op0Name = .RELBR)) ||
  i.iclass = .CALL_FAR

/-- `Instr::IsFunctionReturn`: near or far return. -/
def IsFunctionReturn (i : Instr) : Bool :=
  i.iclass = .RET_NEAR || i.iclass = .RET_FAR

/-- `Instr::IsSystemCall`: `SYSCALL`, `SYSCALL_AMD`, or `SYSENTER`. -/
def IsSystemCall (i : Instr) : Bool :=
  i.iclass = .SYSCALL || i.iclass = .SYSCALL_AMD || i.iclass = .SYSENTER

/-- `Instr::IsSystemReturn`: `SYSRET`, `SYSRET_AMD`, or `SYSEXIT`. -/
def IsSystemReturn (i : Instr) : Bool :=
  i.iclass = .SYSRET || i.iclass = .SYSRET_AMD || i.iclass = .SYSEXIT

/-- `Instr::IsInterruptCall`: class tag in the inclusive XED range
`INT .. INTO`. -/
def IsInterruptCall (i : Instr) : Bool :=
  i.iclass.between .INT .INTO

/-- `Instr::IsInterruptReturn`: class tag in the inclusive XED range
`IRET .. IRETQ`. -/
def IsInterruptReturn (i : Instr) : Bool :=
  i.iclass.between .IRET .IRETQ

/-- `Instr::IsBranch`: conditional jumps (three XED ranges) and
transactional begin. -/
def IsBranch (i : Instr) : Bool :=
  i.iclass.between .JB .JLE || i.iclass.between .JNB .JZ ||
  i.iclass.between .LOOP .LOOPNE || i.iclass = .XBEGIN

/-- The disjunction of every predicate tested by the
`Instr::LiftIntoBlock` dispatch chain, in source order. -/
def IsControlFlow (i : Instr) : Bool :=
  IsError i || IsDirectJump i || IsIndirectJump i ||
  IsDirectFunctionCall i || IsIndirectFunctionCall i ||
  IsFunctionReturn i || IsBranch i || IsSystemCall i ||
  IsSystemReturn i || IsInterruptCall i || IsInterruptReturn i

/-- The value `Instr::TargetPC` computes when its contract check
passes: `next_pc + branch_displacement` reinterpreted as unsigned. -/
def targetPCVal (i : Instr) : Nat :=
  toU64 ((NextPC i : Int) + i.branchDisp)

/-- `Instr::TargetPC` (`Instr.cpp` lines 537-543): a `CHECK` failure
(process-terminating) unless the instruction is a direct jump, a
direct function call, or a branch; otherwise the target address. -/
def TargetPC (i : Instr) : Except String Nat :=
  if IsDirectJump i || IsDirectFunctionCall i || IsBranch i then
    .ok (targetPCVal i)
  else
    .error "Can only get target PC of a direct jump, branch, or function call."

/-- An LLVM IR value created while lifting one instruction, as an
expression tree: each constructor records one IR-builder call of the
source. -/
inductive Value where
  | stateArg
  | constInt (width : Nat) (val : Nat) (signed : Bool)
  | loadVar (name : String)
  | loadVal (addr : Value)
  | zext (v : Value) (width : Nat)
  | sext (v : Value) (width : Nat)
  | add (a b : Value)
  | mul (a b : Value)
  | segAddr (space : Nat) (a : Value)
  | allocaCopy (v : Value)
  | icmpEq (a b : Value)
  deriving DecidableEq, Repr

/-- The target of a terminating tail call: one of the lifter's fixed
helper routines, or the lifted block resolved for a program counter
(`Lifter::GetLiftedBlockForPC`). -/
inductive CallTarget where
  | error
  | jump
  | functionCall
  | functionReturn
  | systemCall
  | systemReturn
  | interruptCall
  | interruptReturn
  | liftedBlock (pc : Nat)
  deriving DecidableEq, Repr

/-- An observable action performed while lifting: IR instructions
emitted into the current block, plus glog messages. -/
inductive Event where
  | store (val ptr : Value)
  | callSem (fname : String) (args : List Value)
  | termTailCall (target : CallTarget)
  | condBr (cond : Value) (taken fallthrough : String)
  | logWarning (msg : String)
  | logError (msg : String)
  deriving DecidableEq, Repr

/-- How `LiftGeneric`'s module lookup of the semantics symbol resolves:
a function, a global variable (with or without a constant initializer),
or nothing. -/
inductive SemLookup where
  | func
  | globalVar (constInit : Bool)
  | missing
  deriving DecidableEq, Repr

/-- Ambient configuration of a lift: the process-wide `--os` flag and
the module's semantics-symbol table. -/
structure Config where
  os : String
  semLookup : String → SemLookup

/-- `InstructionFunctionName` (`Instr.cpp` lines 46-55): optional
Mach-O underscore prefix, the XED iform string, an underscore, and the
effective operand width. -/
def InstructionFunctionName (cfg : Config) (i : Instr) : String :=
  (if cfg.os = "mac" then "_" else "") ++ i.iform ++ "_" ++
    toString i.operandWidth

/-- `AddressSpace` (`Instr.cpp` lines 59-69): address-generation
operands get 0; otherwise 256 for a GS segment, 257 for FS, else 0. -/
def AddressSpace (seg : Reg) (name : OpName) : Nat :=
  if name = .AGEN then 0
  else if seg = .GS then 256
  else if seg = .FS then 257
  else 0

/-- `PCRegName` (`Instr.cpp` lines 157-166): the program-counter
register name for the effective address width; an unrecognized width
logs a (non-fatal) error and yields the empty name. -/
def PCRegName (i : Instr) : String × List Event :=
  if i.effAddrWidth = 64 then ("RIP", [])
  else if i.effAddrWidth = 32 then ("EIP", [])
  else if i.effAddrWidth = 16 then ("IP", [])
  else ("", [.logError "Unexpected address width."])

/-- `Instr::LiftPC` (`Instr.cpp` lines 172-180): store the next program
counter, as an unsigned constant of the machine-mode width, through the
program-counter register's write slot. -/
def LiftPC (i : Instr) : List Event :=
  let w := i.machineModeBits
  let pc := PCRegName i
  pc.2 ++
    [.store (.constInt w (toUN w (NextPC i : Int)) false)
            (.loadVar (pc.1 ++ "_write"))]

/-- The memory reference a memory operand refers to:
`mem_index = (XED_OPERAND_MEM1 == op_name) ? 1 : 0`. -/
def memOf (i : Instr) (o : Operand) : MemRef :=
  if o.name = .MEM1 then i.mem1 else i.mem0

/-- The `RegToValue` lambda inside `Instr::LiftMemory`: the invalid
register becomes the constant 0; otherwise the register's read slot is
loaded and zero-extended to the address width when narrower. -/
def regToValue (w : Nat) (r : Reg) : Value :=
  if r = .INVALID then .constInt w 0 false
  else
    let v := Value.loadVal (.loadVar (r.str ++ "_read"))
    if r.width < w then .zext v w else v

/-- The base value `Instr::LiftMemory` feeds into `B + I*S + D`: the
base register's value, bumped by one address width of bytes when the
instruction is a `POP` whose base belongs to the stack-pointer
family. -/
def memBaseValue (i : Instr) (m : MemRef) : Value :=
  let w := i.machineModeBits
  let b := regToValue w m.base
  if i.iclass = .POP && m.base.largestEnclosing = .RSP then
    .add b (.constInt w (w / 8) false)
  else b

/-- The displacement constant of `Instr::LiftMemory`: a signed 32-bit
constant, sign-extended to the address width when that is wider. -/
def memDispValue (i : Instr) (m : MemRef) : Value :=
  let w := i.machineModeBits
  let d := Value.constInt 32 (toUN 32 m.disp) true
  if 32 < w then .sext d w else d

/-- The linear (pre-segmentation) address `Instr::LiftMemory` computes:
a bare displacement, a PC-relative constant, or `B + I*S + D`. -/
def linearAddress (i : Instr) (o : Operand) : Value :=
  let m := memOf i o
  let w := i.machineModeBits
  if m.base = .INVALID && m.index = .INVALID then
    .constInt w (toUN w m.disp) false
  else if m.base = .RIP then
    .constInt w (toUN w ((NextPC i : Int) + m.disp)) false
  else
    .add (.add (memBaseValue i m)
               (.mul (regToValue w m.index) (.constInt w m.scale true)))
         (memDispValue i m)

/-- The final address of `Instr::LiftMemory`: the linear address,
routed through the `compute_address` helper exactly when the address
space is non-zero. -/
def liftMemoryAddr (i : Instr) (o : Operand) : Value :=
  let sp := AddressSpace (memOf i o).seg o.name
  let a := linearAddress i o
  if sp ≠ 0 then .segAddr sp a else a

/-- The arguments `Instr::LiftMemory` appends: the computed address,
once for a write role and once for a read role, in that order. -/
def liftMemoryArgs (i : Instr) (o : Operand) : List Value :=
  let a := liftMemoryAddr i o
  (if o.written then [a] else []) ++ (if o.read then [a] else [])

/-- `Instr::LiftImmediate` (`Instr.cpp` lines 372-400): fatal when the
immediate is wider than the effective operand width; the signed path is
taken for `IMM0SIGNED` or whenever the decoded instruction's
immediate-signedness flag is set, the unsigned first or second
immediate otherwise. -/
def liftImmediateArg (i : Instr) (opName : OpName) : Except String Value :=
  let opSize := i.operandWidth
  if ¬ (i.immWidthBits ≤ opSize) then
    .error "Immediate size is greater than effective operand size."
  else if opName = .IMM0SIGNED || i.immIsSigned then
    .ok (.constInt opSize (toUN opSize i.signedImm) true)
  else if opName = .IMM0 then
    .ok (.constInt opSize (toUN opSize (i.unsignedImm : Int)) false)
  else if opName = .IMM1_BYTES || opName = .IMM1 then
    .ok (.constInt opSize (toUN opSize (i.secondImm : Int)) false)
  else
    .error "Unexpected immediate type."

/-- The value `Instr::LiftRegister` appends for a read register: vector
registers go through a freshly copied local, scalar registers are
passed by value. -/
def regReadValue (r : Reg) : Value :=
  let v := Value.loadVal (.loadVar (r.str ++ "_read"))
  if r.isVector then .allocaCopy v else v

/-- `Instr::LiftRegister` (`Instr.cpp` lines 415-457): the write handle
(the register's write slot) first, then the read value. -/
def liftRegisterArgs (o : Operand) : List Value :=
  (if o.written then [Value.loadVar (o.reg.str ++ "_write")] else []) ++
  (if o.read then [regReadValue o.reg] else [])

/-- `Instr::LiftBranchDisplacement`: the resolved absolute target, as a
signed constant of the address width. -/
def liftBranchDispArg (i : Instr) : Except String Value := do
  let t ← TargetPC i
  pure (.constInt i.machineModeBits (toUN i.machineModeBits (t : Int)) true)

/-- The dispatch of `Instr::LiftOperand` over a visible operand's kind;
`PTR` and unlisted kinds are fatal. -/
def liftOperandArgs (i : Instr) (o : Operand) : Except String (List Value) :=
  match o.name with
  | .AGEN | .MEM0 => .ok (liftMemoryArgs i o)
  | .IMM0SIGNED | .IMM0 | .IMM1_BYTES | .IMM1 => do
      let v ← liftImmediateArg i o.name
      pure [v]
  | .PTR => .error "Unsupported operand type: XED_OPERAND_PTR"
  | .REG0 | .REG1 | .REG2 | .REG3 => .ok (liftRegisterArgs o)
  | .RELBR => do
      let v ← liftBranchDispArg i
      pure [v]
  | _ => .error "Unexpected operand type."

/-- `Instr::LiftOperand`: suppressed operands are skipped entirely. -/
def liftOperand (i : Instr) (o : Operand) : Except String (List Value) :=
  if o.suppressed then .ok [] else liftOperandArgs i o

/-- The argument list `Instr::LiftGeneric` builds: the machine-state
argument, then each operand's contribution in decode order. -/
def liftGenericArgs (i : Instr) : Except String (List Value) := do
  let ls ← i.operands.mapM (liftOperand i)
  pure (Value.stateArg :: ls.flatten)

/-- `Instr::LiftGeneric` (`Instr.cpp` lines 183-214): build the
argument list, then call the semantics function found by name (also
through a constant function-pointer global), or log a warning when the
module has neither. -/
def LiftGeneric (cfg : Config) (i : Instr) : Except String (List Event) := do
  let args ← liftGenericArgs i
  let fname := InstructionFunctionName cfg i
  match cfg.semLookup fname with
  | .func => pure [.callSem fname args]
  | .globalVar true => pure [.callSem fname args]
  | .globalVar false =>
      .error "Expected a constexpr variable as the function pointer."
  | .missing => pure [.logWarning ("Missing instruction semantics for " ++ fname)]

/-- `Instr::LiftConditionalBranch` (`Instr.cpp` lines 217-237): load
the staged target from the PC read slot, create the two blocks, give
each its successor tail call, and end the original block with a
conditional branch on equality with the static target (equality takes
the taken block). -/
def LiftConditionalBranch (i : Instr) :
    Except String (List Event × List (String × CallTarget)) := do
  let w := i.machineModeBits
  let t ← TargetPC i
  let pc := PCRegName i
  let destPC := Value.loadVal (.loadVar (pc.1 ++ "_read"))
  let branchPC := Value.constInt w (toUN w (t : Int)) false
  pure (pc.2 ++ [.condBr (.icmpEq branchPC destPC) "branch_taken" "fall_through"],
        [("branch_taken", .liftedBlock t),
         ("fall_through", .liftedBlock (NextPC i))])

/-- The outcome of lifting one instruction into a block: the value
`Instr::LiftIntoBlock` returns (true means the caller must append a
fallthrough edge), the events emitted into the original block, and the
new blocks created (with their terminating targets). -/
structure LiftResult where
  needsFallthrough : Bool
  events : List Event
  blocks : List (String × CallTarget)
  deriving DecidableEq, Repr

/-- `Instr::LiftIntoBlock` (`Instr.cpp` lines 73-152): the priority
dispatch chain over the classification predicates. -/
def LiftIntoBlock (cfg : Config) (i : Instr) : Except String LiftResult := do
  if IsError i then
    pure ⟨false, [.termTailCall .error], []⟩
  else if IsDirectJump i then do
    let t ← TargetPC i
    pure ⟨false, [.termTailCall (.liftedBlock t)], []⟩
  else if IsIndirectJump i then do
    let ev ← LiftGeneric cfg i
    pure ⟨false, LiftPC i ++ ev ++ [.termTailCall .jump], []⟩
  else if IsDirectFunctionCall i then do
    let ev ← LiftGeneric cfg i
    let t ← TargetPC i
    pure ⟨false, LiftPC i ++ ev ++ [.termTailCall (.liftedBlock t)], []⟩
  else if IsIndirectFunctionCall i then do
    let ev ← LiftGeneric cfg i
    pure ⟨false, LiftPC i ++ ev ++ [.termTailCall .functionCall], []⟩
  else if IsFunctionReturn i then do
    let ev ← LiftGeneric cfg i
    pure ⟨false, LiftPC i ++ ev ++ [.termTailCall .functionReturn], []⟩
  else if IsBranch i then do
    let ev ← LiftGeneric cfg i
    let cb ← LiftConditionalBranch i
    pure ⟨false, LiftPC i ++ ev ++ cb.1, cb.2⟩
  else if IsSystemCall i then do
    let ev ← LiftGeneric cfg i
    pure ⟨false, LiftPC i ++ ev ++ [.termTailCall .systemCall], []⟩
  else if IsSystemReturn i then do
    let ev ← LiftGeneric cfg i
    pure ⟨false,
          LiftPC i ++ ev ++
            [.termTailCall .systemReturn,
             .logWarning ("Unsupported instruction (system return) at PC " ++
               toString i.address)],
          []⟩
  else if IsInterruptCall i then do
    let ev ← LiftGeneric cfg i
    pure ⟨false, LiftPC i ++ ev ++ [.termTailCall .interruptCall], []⟩
  else if IsInterruptReturn i then do
    let ev ← LiftGeneric cfg i
    pure ⟨false,
          LiftPC i ++ ev ++
            [.termTailCall .interruptReturn,
             .logWarning ("Unsupported instruction (system return) at PC " ++
               toString i.address)],
          []⟩
  else do
    let ev ← LiftGeneric cfg i
    pure ⟨true, ev, []⟩

/-- The non-suppressed operands, in decode order. -/
def visibleOperands (i : Instr) : List Operand :=
  i.operands.filter (fun o => !o.suppressed)

/-- Whether an event is a `store` instruction. -/
def isStoreEv : Event → Bool
  | .store _ _ => true
  | _ => false

/-- Whether an event terminates the current block (a terminating tail
call or a conditional branch). -/
def isTermEv : Event → Bool
  | .termTailCall _ => true
  | .condBr _ _ _ => true
  | _ => false

/-- Number of `compute_address` (segmented-address helper) calls inside
a value. -/
def segCount : Value → Nat
  | .segAddr _ a => 1 + segCount a
  | .loadVal a => segCount a
  | .zext v _ => segCount v
  | .sext v _ => segCount v
  | .add a b => segCount a + segCount b
  | .mul a b => segCount a + segCount b
  | .allocaCopy v => segCount v
  | .icmpEq a b => segCount a + segCount b
  | .stateArg => 0
  | .constInt _ _ _ => 0
  | .loadVar _ => 0

/-- A memory reference with every field absent. -/
def memNone : MemRef :=
  { seg := .INVALID, base := .INVALID, index := .INVALID, scale := 0, disp := 0 }

/-- A configuration whose module registers a semantics function for
every name, on a non-Mach-O target. -/
def cfg0 : Config :=
  { os := "linux", semLookup := fun _ => .func }

/-- A decoded `JMP` with a relative-branch operand: address 0x1000,
size 2, displacement 5 (a direct jump). -/
def jmpInstr : Instr :=
  { iclass := .JMP, address := 4096, size := 2, effAddrWidth := 64,
    machineModeBits := 64, operandWidth := 32, immWidthBits := 0,
    immIsSigned := false, signedImm := 0, unsignedImm := 0, secondImm := 0,
    branchDisp := 5, iform := "JMP_RELBRd",
    operands := [{ name := .RELBR, suppressed := false, read := false,
                   written := false, reg := .INVALID }],
    mem0 := memNone, mem1 := memNone }

/-- The result of lifting `jmpInstr`. -/
def jmpResult : LiftResult :=
  { needsFallthrough := false,
    events := [.termTailCall (.liftedBlock 4103)], blocks := [] }

/-- A decoded `JMP` with a negative displacement: address 0x1000,
size 2, displacement -5 (spec example for `TargetPC`). -/
def jmpBackInstr : Instr :=
  { jmpInstr with branchDisp := -5 }

/-- A decoded conditional branch (`JZ`) with a relative-branch operand:
address 0x1000, size 2, displacement 5. -/
def jzInstr : Instr :=
  { jmpInstr with iclass := .JZ, iform := "JZ_RELBRd" }

/-- A decoded `POP` whose memory operand reads through the stack
pointer: `POP [RSP]` at address width 64. -/
def popInstr : Instr :=
  { iclass := .POP, address := 4096, size := 3, effAddrWidth := 64,
    machineModeBits := 64, operandWidth := 64, immWidthBits := 0,
    immIsSigned := false, signedImm := 0, unsignedImm := 0, secondImm := 0,
    branchDisp := 0, iform := "POP_MEMv",
    operands := [{ name := .MEM0, suppressed := false, read := true,
                   written := false, reg := .INVALID }],
    mem0 := { seg := .INVALID, base := .RSP, index := .INVALID,
              scale := 1, disp := 0 },
    mem1 := memNone }

/-- The memory operand of `popInstr`. -/
def popOp : Operand :=
  { name := .MEM0, suppressed := false, read := true, written := false,
    reg := .INVALID }

/-- A decoded `MOV` whose memory operand carries a GS segment
override. -/
def segInstr : Instr :=
  { popInstr with
    iclass := .MOV,
    iform := "MOV_MEMv_GPRv",
    mem0 := { seg := .GS, base := .RAX, index := .INVALID,
              scale := 1, disp := 16 } }

/-- A read-write memory operand. -/
def rwMemOp : Operand :=
  { name := .MEM0, suppressed := false, read := true, written := true,
    reg := .INVALID }

/-- An address-generation operand (as in `LEA`). -/
def agenOp : Operand :=
  { name := .AGEN, suppressed := false, read := false, written := false,
    reg := .INVALID }

/-- A decoded instruction with a register operand that is both read and
written, a read-write memory operand, and a suppressed operand. -/
def rwInstr : Instr :=
  { iclass := .ADD, address := 4096, size := 3, effAddrWidth := 64,
    machineModeBits := 64, operandWidth := 32, immWidthBits := 0,
    immIsSigned := false, signedImm := 0, unsignedImm := 0, secondImm := 0,
    branchDisp := 0, iform := "ADD_MEMv_GPRv",
    operands := [rwMemOp,
                 { name := .REG0, suppressed := false, read := true,
                   written := true, reg := .RAX },
                 { name := .REG1, suppressed := true, read := true,
                   written := true, reg := .RDX }],
    mem0 := { seg := .INVALID, base := .RBX, index := .INVALID,
              scale := 1, disp := 8 },
    mem1 := memNone }

/-- A decoded instruction with two immediates whose immediate-signedness
flag is set (first immediate -1, second immediate 5, 8-bit operand). -/
def immCexInstr : Instr :=
  { iclass := .ADD, address := 4096, size := 4, effAddrWidth := 64,
    machineModeBits := 64, operandWidth := 8, immWidthBits := 8,
    immIsSigned := true, signedImm := -1, unsignedImm := 255, secondImm := 5,
    branchDisp := 0, iform := "ADD", operands := [], mem0 := memNone,
    mem1 := memNone }

/-- The same two-immediate instruction with the signedness flag
clear. -/
def immOkInstr : Instr :=
  { immCexInstr with immIsSigned := false, signedImm := 1, unsignedImm := 1 }

/-- A decoded indirect jump (`JMP RAX`) whose effective address width
is the unrecognized value 8. -/
def badPCInstr : Instr :=
  { iclass := .JMP, address := 4096, size := 2, effAddrWidth := 8,
    machineModeBits := 64, operandWidth := 64, immWidthBits := 0,
    immIsSigned := false, signedImm := 0, unsignedImm := 0, secondImm := 0,
    branchDisp := 0, iform := "JMP_GPRv",
    operands := [{ name := .REG0, suppressed := false, read := true,
                   written := false, reg := .RAX }],
    mem0 := memNone, mem1 := memNone }

/-- The result of lifting `jzInstr` under `cfg0`. -/
def jzResult : LiftResult :=
  { needsFallthrough := false,
    events := [.store (.constInt 64 4098 false) (.loadVar "RIP_write"),
               .callSem "JZ_RELBRd_32" [.stateArg, .constInt 64 4103 true],
               .condBr (.icmpEq (.constInt 64 4103 false)
                                (.loadVal (.loadVar "RIP_read")))
                 "branch_taken" "fall_through"],
    blocks := [("branch_taken", .liftedBlock 4103),
               ("fall_through", .liftedBlock 4098)] }


/-- The effective-address value computed for `rwInstr`'s memory
operand. -/
def rwAddr : Value :=
  .add (.add (.loadVal (.loadVar "RBX_read"))
             (.mul (.constInt 64 0 false) (.constInt 64 1 true)))
       (.sext (.constInt 32 8 true) 64)

/-- The semantics-call argument list built for `rwInstr`. -/
def rwArgs : List Value :=
  [.stateArg, rwAddr, rwAddr, .loadVar "RAX_write",
   .loadVal (.loadVar "RAX_read")]

/-- The result of lifting `badPCInstr` under `cfg0`. -/
def badPCResult : LiftResult :=
  { needsFallthrough := false,
    events := [.logError "Unexpected address width.",
               .store (.constInt 64 4098 false) (.loadVar "_write"),
               .callSem "JMP_GPRv_64"
                 [.stateArg, .loadVal (.loadVar "RAX_read")],
               .termTailCall .jump],
    blocks := [] }

/-! ### Helper lemmas -/

theorem pure_eq_ok {α : Type} (a : α) : (pure a : Except String α) = .ok a := rfl

theorem bind_ok_iff {α β : Type} (x : Except String α) (f : α → Except String β)
    (b : β) : x >>= f = .ok b ↔ ∃ a, x = .ok a ∧ f a = .ok b := by
  cases x <;> simp [Bind.bind, Except.bind]

theorem error_not_djump (i : Instr) (h : IsError i = true) :
    IsDirectJump i = false := by
  unfold IsError at h
  unfold IsDirectJump
  simp only [decide_eq_true_eq] at h
  simp [h]

theorem branch_excl (i : Instr) (h : IsBranch i = true) :
    IsError i = false ∧ IsDirectJump i = false ∧ IsIndirectJump i = false ∧
    IsDirectFunctionCall i = false ∧ IsIndirectFunctionCall i = false ∧
    IsFunctionReturn i = false := by
  unfold IsBranch IClass.between at h
  unfold IsError IsDirectJump IsIndirectJump IsDirectFunctionCall
    IsIndirectFunctionCall IsFunctionReturn
  cases hc : i.iclass <;> simp [hc, IClass.code] at h ⊢

theorem liftGeneric_no_term (cfg : Config) (i : Instr) (ev : List Event)
    (h : LiftGeneric cfg i = .ok ev) : ev.any isTermEv = false := by
  unfold LiftGeneric at h
  rw [bind_ok_iff] at h
  obtain ⟨args, ha, hm⟩ := h
  cases hsl : cfg.semLookup (InstructionFunctionName cfg i) with
  | func =>
    simp [hsl, pure_eq_ok] at hm
    subst hm
    simp [isTermEv]
  | globalVar b =>
    cases b <;> simp [hsl, pure_eq_ok] at hm
    subst hm
    simp [isTermEv]
  | missing =>
    simp [hsl, pure_eq_ok] at hm
    subst hm
    simp [isTermEv]

theorem pcRegLogs_no_term (i : Instr) :
    ((PCRegName i).2).any isTermEv = false := by
  unfold PCRegName
  split_ifs <;> simp [isTermEv]

theorem liftPC_no_term (i : Instr) : (LiftPC i).any isTermEv = false := by
  unfold LiftPC PCRegName
  split_ifs <;> simp [isTermEv]

theorem mapM_visible (i : Instr) : ∀ (ops : List Operand) (ls : List (List Value)),
    ops.mapM (liftOperand i) = .ok ls →
    ∃ ls2, (ops.filter (fun o => !o.suppressed)).mapM (liftOperandArgs i) = .ok ls2 ∧
      ls.flatten = ls2.flatten := by
  intro ops
  induction ops with
  | nil =>
    intro ls h
    simp only [List.mapM_nil, pure_eq_ok, Except.ok.injEq] at h
    subst h
    exact ⟨[], rfl, rfl⟩
  | cons o t ih =>
    intro ls h
    rw [List.mapM_cons, bind_ok_iff] at h
    obtain ⟨v, hv, h2⟩ := h
    rw [bind_ok_iff] at h2
    obtain ⟨vs, hvs, h3⟩ := h2
    rw [pure_eq_ok] at h3
    have hls : ls = v :: vs := by
      cases h3
      rfl
    subst hls
    obtain ⟨ls2, hls2, hflat⟩ := ih vs hvs
    by_cases hs : o.suppressed = true
    · have hv0 : v = [] := by
        unfold liftOperand at hv
        rw [if_pos hs] at hv
        cases hv
        rfl
      subst hv0
      refine ⟨ls2, ?_, by simpa using hflat⟩
      simpa [List.filter_cons, hs] using hls2
    · have hv2 : liftOperandArgs i o = .ok v := by
        unfold liftOperand at hv
        rwa [if_neg hs] at hv
      refine ⟨v :: ls2, ?_, by simp [hflat]⟩
      rw [List.filter_cons]
      simp only [hs, Bool.not_false, if_true]
      rw [List.mapM_cons, bind_ok_iff]
      refine ⟨v, hv2, ?_⟩
      rw [bind_ok_iff]
      exact ⟨ls2, hls2, rfl⟩

/-! ### Claim C1 -/

/-- C1: for every decoded instruction, `LiftIntoBlock` returns true
(caller must append a fallthrough edge) if and only if the instruction
matches none of the control-flow classification predicates; for an
instruction classified as direct jump it returns false and emits
exactly one terminating transfer, to the block resolved for the jump's
target address, with no fallthrough. -/
theorem c1_fallthrough_iff_not_controlflow (cfg : Config) (i : Instr)
    (r : LiftResult) (h : LiftIntoBlock cfg i = .ok r) :
    (r.needsFallthrough = true ↔ IsControlFlow i = false)
    ∧ (IsDirectJump i = true →
         r.needsFallthrough = false ∧
         r.events = [.termTailCall (.liftedBlock (targetPCVal i))] ∧
         r.blocks = []) := by
  unfold LiftIntoBlock at h
  by_cases h1 : IsError i = true
  · simp [h1, pure_eq_ok] at h
    subst h
    refine ⟨by simp [IsControlFlow, h1], ?_⟩
    intro hd
    rw [error_not_djump i h1] at hd
    exact absurd hd (by simp)
  by_cases h2 : IsDirectJump i = true
  · simp [h1, h2, TargetPC, bind_ok_iff, pure_eq_ok] at h
    subst h
    exact ⟨by simp [IsControlFlow, h2], fun _ => ⟨rfl, rfl, rfl⟩⟩
  by_cases h3 : IsIndirectJump i = true
  · simp [h1, h2, h3, bind_ok_iff, pure_eq_ok] at h
    obtain ⟨ev, hev, hr⟩ := h
    subst hr
    exact ⟨by simp [IsControlFlow, h3], by simp [h2]⟩
  by_cases h4 : IsDirectFunctionCall i = true
  · simp [h1, h2, h3, h4, TargetPC, bind_ok_iff, pure_eq_ok] at h
    obtain ⟨ev, hev, hr⟩ := h
    subst hr
    exact ⟨by simp [IsControlFlow, h4], by simp [h2]⟩
  by_cases h5 : IsIndirectFunctionCall i = true
  · simp [h1, h2, h3, h4, h5, bind_ok_iff, pure_eq_ok] at h
    obtain ⟨ev, hev, hr⟩ := h
    subst hr
    exact ⟨by simp [IsControlFlow, h5], by simp [h2]⟩
  by_cases h6 : IsFunctionReturn i = true
  · simp [h1, h2, h3, h4, h5, h6, bind_ok_iff, pure_eq_ok] at h
    obtain ⟨ev, hev, hr⟩ := h
    subst hr
    exact ⟨by simp [IsControlFlow, h6], by simp [h2]⟩
  by_cases h7 : IsBranch i = true
  · simp [h1, h2, h3, h4, h5, h6, h7, bind_ok_iff, pure_eq_ok] at h
    obtain ⟨ev, hev, cb1, cb2, hcb, hr⟩ := h
    subst hr
    exact ⟨by simp [IsControlFlow, h7], by simp [h2]⟩
  by_cases h8 : IsSystemCall i = true
  · simp [h1, h2, h3, h4, h5, h6, h7, h8, bind_ok_iff, pure_eq_ok] at h
    obtain ⟨ev, hev, hr⟩ := h
    subst hr
    exact ⟨by simp [IsControlFlow, h8], by simp [h2]⟩
  by_cases h9 : IsSystemReturn i = true
  · simp [h1, h2, h3, h4, h5, h6, h7, h8, h9, bind_ok_iff, pure_eq_ok] at h
    obtain ⟨ev, hev, hr⟩ := h
    subst hr
    exact ⟨by simp [IsControlFlow, h9], by simp [h2]⟩
  by_cases h10 : IsInterruptCall i = true
  · simp [h1, h2, h3, h4, h5, h6, h7, h8, h9, h10, bind_ok_iff, pure_eq_ok] at h
    obtain ⟨ev, hev, hr⟩ := h
    subst hr
    exact ⟨by simp [IsControlFlow, h10], by simp [h2]⟩
  by_cases h11 : IsInterruptReturn i = true
  · simp [h1, h2, h3, h4, h5, h6, h7, h8, h9, h10, h11, bind_ok_iff,
      pure_eq_ok] at h
    obtain ⟨ev, hev, hr⟩ := h
    subst hr
    exact ⟨by simp [IsControlFlow, h11], by simp [h2]⟩
  · simp [h1, h2, h3, h4, h5, h6, h7, h8, h9, h10, h11, bind_ok_iff,
      pure_eq_ok] at h
    obtain ⟨ev, hev, hr⟩ := h
    subst hr
    refine ⟨by simp [IsControlFlow, h1, h2, h3, h4, h5, h6, h7, h8, h9, h10, h11],
      by simp [h2]⟩

/-- C1 witness: the direct jump `jmpInstr` (address 0x1000, size 2,
displacement 5) lifts to a single terminating transfer to the block for
0x1007 with no fallthrough. -/
theorem c1_witness :
    LiftIntoBlock cfg0 jmpInstr = .ok jmpResult ∧
    ((jmpResult.needsFallthrough = true ↔ IsControlFlow jmpInstr = false)
     ∧ (IsDirectJump jmpInstr = true →
          jmpResult.needsFallthrough = false ∧
          jmpResult.events = [.termTailCall (.liftedBlock (targetPCVal jmpInstr))] ∧
          jmpResult.blocks = [])) :=
  ⟨rfl, c1_fallthrough_iff_not_controlflow cfg0 jmpInstr jmpResult rfl⟩

/-! ### Claim C2 (corrected) -/

/-- C2 counterexample: the claim includes the error and direct-jump
categories, but a direct jump lifts to a single terminating transfer
with no program-counter store (and no generic pass) at all. -/
theorem c2_counterexample :
    IsControlFlow jmpInstr = true ∧ IsDirectJump jmpInstr = true ∧
    LiftIntoBlock cfg0 jmpInstr = .ok jmpResult ∧
    jmpResult.events.any isStoreEv = false :=
  ⟨rfl, rfl, rfl, rfl⟩

/-- C2 (amended): for every decoded instruction in a control-transfer
category other than error and direct jump, `LiftIntoBlock` first
stores the next program counter into the architectural program-counter
state slot, then runs the generic per-operand lifting pass, and only
then emits the terminating control transfer. -/
theorem c2_pc_generic_terminator_order (cfg : Config) (i : Instr) (r : LiftResult)
    (hcf : IsControlFlow i = true) (he : IsError i = false)
    (hj : IsDirectJump i = false) (h : LiftIntoBlock cfg i = .ok r) :
    LiftPC i = (PCRegName i).2 ++
        [.store (.constInt i.machineModeBits (toUN i.machineModeBits (NextPC i : Int)) false)
                (.loadVar ((PCRegName i).1 ++ "_write"))]
    ∧ ∃ gen rest, LiftGeneric cfg i = .ok gen ∧
        r.events = LiftPC i ++ gen ++ rest ∧
        rest.any isTermEv = true ∧
        (LiftPC i ++ gen).any isTermEv = false := by
  refine ⟨rfl, ?_⟩
  unfold LiftIntoBlock at h
  by_cases h3 : IsIndirectJump i = true
  · simp [he, hj, h3, bind_ok_iff, pure_eq_ok] at h
    obtain ⟨ev, hev, hr⟩ := h
    subst hr
    exact ⟨ev, [.termTailCall .jump], hev, by simp, by simp [isTermEv],
      by simp [liftPC_no_term, liftGeneric_no_term cfg i ev hev]⟩
  by_cases h4 : IsDirectFunctionCall i = true
  · simp [he, hj, h3, h4, TargetPC, bind_ok_iff, pure_eq_ok] at h
    obtain ⟨ev, hev, hr⟩ := h
    subst hr
    exact ⟨ev, [.termTailCall (.liftedBlock (targetPCVal i))], hev, by simp,
      by simp [isTermEv],
      by simp [liftPC_no_term, liftGeneric_no_term cfg i ev hev]⟩
  by_cases h5 : IsIndirectFunctionCall i = true
  · simp [he, hj, h3, h4, h5, bind_ok_iff, pure_eq_ok] at h
    obtain ⟨ev, hev, hr⟩ := h
    subst hr
    exact ⟨ev, [.termTailCall .functionCall], hev, by simp, by simp [isTermEv],
      by simp [liftPC_no_term, liftGeneric_no_term cfg i ev hev]⟩
  by_cases h6 : IsFunctionReturn i = true
  · simp [he, hj, h3, h4, h5, h6, bind_ok_iff, pure_eq_ok] at h
    obtain ⟨ev, hev, hr⟩ := h
    subst hr
    exact ⟨ev, [.termTailCall .functionReturn], hev, by simp, by simp [isTermEv],
      by simp [liftPC_no_term, liftGeneric_no_term cfg i ev hev]⟩
  by_cases h7 : IsBranch i = true
  · simp [he, hj, h3, h4, h5, h6, h7, bind_ok_iff, pure_eq_ok] at h
    obtain ⟨ev, hev, cb1, cb2, hcb, hr⟩ := h
    subst hr
    simp [LiftConditionalBranch, TargetPC, h7, bind_ok_iff, pure_eq_ok] at hcb
    obtain ⟨hcb1, hcb2⟩ := hcb
    subst hcb1
    exact ⟨ev, (PCRegName i).2 ++
        [.condBr (.icmpEq (.constInt i.machineModeBits
            (toUN i.machineModeBits (targetPCVal i : Int)) false)
          (.loadVal (.loadVar ((PCRegName i).1 ++ "_read"))))
          "branch_taken" "fall_through"], hev, by simp, by simp [isTermEv],
      by simp [liftPC_no_term, liftGeneric_no_term cfg i ev hev]⟩
  by_cases h8 : IsSystemCall i = true
  · simp [he, hj, h3, h4, h5, h6, h7, h8, bind_ok_iff, pure_eq_ok] at h
    obtain ⟨ev, hev, hr⟩ := h
    subst hr
    exact ⟨ev, [.termTailCall .systemCall], hev, by simp, by simp [isTermEv],
      by simp [liftPC_no_term, liftGeneric_no_term cfg i ev hev]⟩
  by_cases h9 : IsSystemReturn i = true
  · simp [he, hj, h3, h4, h5, h6, h7, h8, h9, bind_ok_iff, pure_eq_ok] at h
    obtain ⟨ev, hev, hr⟩ := h
    subst hr
    refine ⟨ev, [.termTailCall .systemReturn,
      .logWarning ("Unsupported instruction (system return) at PC " ++
        toString i.address)], hev, by simp, by simp [isTermEv],
      by simp [liftPC_no_term, liftGeneric_no_term cfg i ev hev]⟩
  by_cases h10 : IsInterruptCall i = true
  · simp [he, hj, h3, h4, h5, h6, h7, h8, h9, h10, bind_ok_iff, pure_eq_ok] at h
    obtain ⟨ev, hev, hr⟩ := h
    subst hr
    exact ⟨ev, [.termTailCall .interruptCall], hev, by simp, by simp [isTermEv],
      by simp [liftPC_no_term, liftGeneric_no_term cfg i ev hev]⟩
  by_cases h11 : IsInterruptReturn i = true
  · simp [he, hj, h3, h4, h5, h6, h7, h8, h9, h10, h11, bind_ok_iff, pure_eq_ok] at h
    obtain ⟨ev, hev, hr⟩ := h
    subst hr
    refine ⟨ev, [.termTailCall .interruptReturn,
      .logWarning ("Unsupported instruction (system return) at PC " ++
        toString i.address)], hev, by simp, by simp [isTermEv],
      by simp [liftPC_no_term, liftGeneric_no_term cfg i ev hev]⟩
  · exfalso
    simp [IsControlFlow, he, hj, h3, h4, h5, h6, h7, h8, h9, h10, h11] at hcf

/-- C2 witness: the conditional branch `jzInstr` lifts to the
program-counter store, then the semantics call, then the conditional
transfer. -/
theorem c2_witness :
    IsControlFlow jzInstr = true ∧ IsError jzInstr = false ∧
    IsDirectJump jzInstr = false ∧
    (LiftPC jzInstr = (PCRegName jzInstr).2 ++
        [.store (.constInt jzInstr.machineModeBits
            (toUN jzInstr.machineModeBits (NextPC jzInstr : Int)) false)
                (.loadVar ((PCRegName jzInstr).1 ++ "_write"))]
    ∧ ∃ gen rest, LiftGeneric cfg0 jzInstr = .ok gen ∧
        jzResult.events = LiftPC jzInstr ++ gen ++ rest ∧
        rest.any isTermEv = true ∧
        (LiftPC jzInstr ++ gen).any isTermEv = false) :=
  ⟨rfl, rfl, rfl, c2_pc_generic_terminator_order cfg0 jzInstr jzResult rfl rfl rfl rfl⟩

/-! ### Claim C3 -/

/-- C3: for every instruction at address A with byte size S classified
as direct jump, direct function call, or branch, with signed branch
displacement D, `TargetPC` returns A + S + D (as an unsigned 64-bit
value, exactly A + S + D whenever that sum is in range); calling it on
any other instruction is a fatal contract violation. -/
theorem c3_target_pc (i : Instr) :
    ((IsDirectJump i || IsDirectFunctionCall i || IsBranch i) = true →
       TargetPC i = .ok (toU64 ((i.address : Int) + (i.size : Int) + i.branchDisp))
       ∧ (0 ≤ (i.address : Int) + i.size + i.branchDisp →
          (i.address : Int) + i.size + i.branchDisp < 2 ^ 64 →
          TargetPC i = .ok (((i.address : Int) + i.size + i.branchDisp).toNat)))
    ∧ ((IsDirectJump i || IsDirectFunctionCall i || IsBranch i) = false →
       TargetPC i =
         .error "Can only get target PC of a direct jump, branch, or function call.") := by
  constructor
  · intro h
    have hval : targetPCVal i = toU64 ((i.address : Int) + (i.size : Int) + i.branchDisp) := by
      unfold targetPCVal NextPC toU64 toUN
      congr 1
      push_cast
      rw [Int.emod_add_emod]
    constructor
    · unfold TargetPC
      rw [h]
      simp [hval]
    · intro hge hlt
      unfold TargetPC
      rw [h]
      simp only [if_true]
      rw [hval]
      unfold toU64 toUN
      rw [Int.emod_eq_of_lt hge (by exact_mod_cast hlt)]
  · intro h
    unfold TargetPC
    rw [h]
    simp


/-- C3 witness: the spec example, address 0x1000, size 2,
displacement -5, gives target 0x0FFD = 4093. -/
theorem c3_witness :
    (IsDirectJump jmpBackInstr || IsDirectFunctionCall jmpBackInstr ||
      IsBranch jmpBackInstr) = true ∧
    TargetPC jmpBackInstr = .ok 4093 := by
  refine ⟨by decide, ?_⟩
  have h := ((c3_target_pc jmpBackInstr).1 (by decide)).2 (by decide) (by decide)
  rw [h]
  rfl


/-! ### Claim C4 -/

/-- C4: after the generic lifting pass the argument list is the
machine-state argument followed by one contribution per visible
operand in decode order; a read-write register operand contributes its
write handle before its read value; a memory operand contributes
exactly one address per read/write role, write slot before read slot,
and a read-write memory operand contributes the same computed address
twice. -/
theorem c4_argument_order (i : Instr) (args : List Value)
    (h : liftGenericArgs i = .ok args) :
    (∃ ls, (visibleOperands i).mapM (liftOperandArgs i) = .ok ls ∧
        args = Value.stateArg :: ls.flatten)
    ∧ (∀ o : Operand,
        (o.name = .REG0 ∨ o.name = .REG1 ∨ o.name = .REG2 ∨ o.name = .REG3) →
        liftOperandArgs i o =
          .ok ((if o.written then [Value.loadVar (o.reg.str ++ "_write")] else []) ++
               (if o.read then [regReadValue o.reg] else [])))
    ∧ (∀ o : Operand, (o.name = .MEM0 ∨ o.name = .AGEN) →
        liftOperandArgs i o =
          .ok ((if o.written then [liftMemoryAddr i o] else []) ++
               (if o.read then [liftMemoryAddr i o] else [])))
    ∧ (∀ o : Operand, (o.name = .MEM0 ∨ o.name = .AGEN) →
        o.written = true → o.read = true →
        liftOperandArgs i o = .ok [liftMemoryAddr i o, liftMemoryAddr i o]) := by
  refine ⟨?_, ?_, ?_, ?_⟩
  · unfold liftGenericArgs at h
    rw [bind_ok_iff] at h
    obtain ⟨ls, hls, h2⟩ := h
    rw [pure_eq_ok] at h2
    have hargs : args = Value.stateArg :: ls.flatten := by
      cases h2
      rfl
    obtain ⟨ls2, hls2, hflat⟩ := mapM_visible i i.operands ls hls
    exact ⟨ls2, hls2, by rw [hargs, hflat]⟩
  · intro o ho
    rcases ho with hn | hn | hn | hn <;>
      simp [liftOperandArgs, hn, liftRegisterArgs]
  · intro o ho
    rcases ho with hn | hn <;>
      simp [liftOperandArgs, hn, liftMemoryArgs]
  · intro o ho hw hr
    rcases ho with hn | hn <;>
      simp [liftOperandArgs, hn, liftMemoryArgs, hw, hr]

/-- C4 witness: `rwInstr` (read-write memory operand, read-write
register operand, one suppressed operand) marshals to the state
argument, the memory address twice, then the register write handle
before its read value. -/
theorem c4_witness :
    liftGenericArgs rwInstr = .ok rwArgs ∧
    ((∃ ls, (visibleOperands rwInstr).mapM (liftOperandArgs rwInstr) = .ok ls ∧
        rwArgs = Value.stateArg :: ls.flatten)
    ∧ (∀ o : Operand,
        (o.name = .REG0 ∨ o.name = .REG1 ∨ o.name = .REG2 ∨ o.name = .REG3) →
        liftOperandArgs rwInstr o =
          .ok ((if o.written then [Value.loadVar (o.reg.str ++ "_write")] else []) ++
               (if o.read then [regReadValue o.reg] else [])))
    ∧ (∀ o : Operand, (o.name = .MEM0 ∨ o.name = .AGEN) →
        liftOperandArgs rwInstr o =
          .ok ((if o.written then [liftMemoryAddr rwInstr o] else []) ++
               (if o.read then [liftMemoryAddr rwInstr o] else [])))
    ∧ (∀ o : Operand, (o.name = .MEM0 ∨ o.name = .AGEN) →
        o.written = true → o.read = true →
        liftOperandArgs rwInstr o =
          .ok [liftMemoryAddr rwInstr o, liftMemoryAddr rwInstr o])) :=
  ⟨rfl, c4_argument_order rwInstr rwArgs rfl⟩


/-! ### Claim C5 -/

/-- C5: lifting a conditional branch creates exactly two new blocks;
the taken block terminates with the successor resolved for `TargetPC`,
the fall-through block with the successor for the next program
counter, and the original block ends with a conditional transfer whose
condition compares the value loaded from the program-counter read slot
against a constant equal to the static target, equality selecting the
taken block. -/
theorem c5_conditional_branch_blocks (cfg : Config) (i : Instr) (r : LiftResult)
    (hb : IsBranch i = true) (h : LiftIntoBlock cfg i = .ok r) :
    r.blocks.length = 2 ∧
    r.blocks = [("branch_taken", .liftedBlock (targetPCVal i)),
                ("fall_through", .liftedBlock (NextPC i))] ∧
    ∃ gen, LiftGeneric cfg i = .ok gen ∧
      r.events = LiftPC i ++ gen ++ (PCRegName i).2 ++
        [.condBr (.icmpEq (.constInt i.machineModeBits
              (toUN i.machineModeBits (targetPCVal i : Int)) false)
            (.loadVal (.loadVar ((PCRegName i).1 ++ "_read"))))
          "branch_taken" "fall_through"] := by
  obtain ⟨he, hj, hij, hdc, hic, hfr⟩ := branch_excl i hb
  unfold LiftIntoBlock at h
  simp [he, hj, hij, hdc, hic, hfr, hb, bind_ok_iff, pure_eq_ok] at h
  obtain ⟨ev, hev, cb1, cb2, hcb, hr⟩ := h
  subst hr
  simp [LiftConditionalBranch, TargetPC, hb, bind_ok_iff, pure_eq_ok] at hcb
  obtain ⟨hcb1, hcb2⟩ := hcb
  subst hcb1
  subst hcb2
  exact ⟨rfl, rfl, ev, hev, by simp⟩

/-- C5 witness: the conditional branch `jzInstr` produces the
branch-taken block for 0x1007 and the fall-through block for 0x1002,
with the equality-tested conditional transfer. -/
theorem c5_witness :
    IsBranch jzInstr = true ∧ LiftIntoBlock cfg0 jzInstr = .ok jzResult ∧
    (jzResult.blocks.length = 2 ∧
     jzResult.blocks = [("branch_taken", .liftedBlock (targetPCVal jzInstr)),
                        ("fall_through", .liftedBlock (NextPC jzInstr))] ∧
     ∃ gen, LiftGeneric cfg0 jzInstr = .ok gen ∧
       jzResult.events = LiftPC jzInstr ++ gen ++ (PCRegName jzInstr).2 ++
         [.condBr (.icmpEq (.constInt jzInstr.machineModeBits
               (toUN jzInstr.machineModeBits (targetPCVal jzInstr : Int)) false)
             (.loadVal (.loadVar ((PCRegName jzInstr).1 ++ "_read"))))
           "branch_taken" "fall_through"]) :=
  ⟨rfl, rfl, c5_conditional_branch_blocks cfg0 jzInstr jzResult rfl rfl⟩


/-! ### Claim C6 (corrected) -/

/-- C6 counterexample: on `immCexInstr` (two immediates, the decoded
immediate-signedness flag set, first immediate -1, second immediate 5)
the second immediate operand is materialized through the signed path as
the sign-extended first immediate (constant 255, signed), not as the
unsigned second immediate (which would be the constant 5, unsigned). -/
theorem c6_counterexample :
    immCexInstr.immIsSigned = true ∧
    liftImmediateArg immCexInstr .IMM1 = .ok (.constInt 8 255 true) ∧
    (∀ v : Nat, liftImmediateArg immCexInstr .IMM1 ≠ .ok (.constInt 8 v false)) ∧
    toUN 8 (immCexInstr.secondImm : Int) = 5 := by
  refine ⟨rfl, rfl, ?_, rfl⟩
  intro v hv
  rw [show liftImmediateArg immCexInstr .IMM1 = .ok (.constInt 8 255 true) from rfl] at hv
  simp at hv

/-- C6 (amended): for every instruction with two immediates whose
decoded immediate-signedness flag is clear, the second immediate is
materialized as an unsigned constant; when the flag is set, the
operand instead takes the signed path. -/
theorem c6_second_immediate_unsigned (i : Instr) (n : OpName)
    (hn : n = .IMM1 ∨ n = .IMM1_BYTES) (hs : i.immIsSigned = false)
    (hw : i.immWidthBits ≤ i.operandWidth) :
    liftImmediateArg i n =
      .ok (.constInt i.operandWidth (toUN i.operandWidth (i.secondImm : Int)) false) := by
  rcases hn with hn | hn <;> subst hn <;> simp [liftImmediateArg, hs, hw]

/-- C6 witness: `immOkInstr` (flag clear, second immediate 5) yields
the unsigned constant 5. -/
theorem c6_witness :
    immOkInstr.immIsSigned = false ∧ immOkInstr.immWidthBits ≤ immOkInstr.operandWidth ∧
    liftImmediateArg immOkInstr .IMM1 =
      .ok (.constInt immOkInstr.operandWidth
        (toUN immOkInstr.operandWidth (immOkInstr.secondImm : Int)) false) :=
  ⟨rfl, by decide, c6_second_immediate_unsigned immOkInstr .IMM1 (Or.inl rfl) rfl (by decide)⟩


/-! ### Claim C7 -/

theorem largest_rsp (b : Reg) (h : b.largestEnclosing = .RSP) :
    b ≠ .INVALID ∧ b ≠ .RIP :=
  (by decide : ∀ b : Reg, b.largestEnclosing = .RSP →
      b ≠ .INVALID ∧ b ≠ .RIP) b h

/-- C7: for every memory operand on a pop-class instruction whose base
register belongs to the stack-pointer family, the base value used in
the address computation is the stack-pointer value plus one
address-width of bytes (at width 64, the stack-pointer value plus
8). -/
theorem c7_pop_stack_pointer_bump (i : Instr) (o : Operand)
    (hc : i.iclass = .POP)
    (hs : (memOf i o).base.largestEnclosing = .RSP) :
    memBaseValue i (memOf i o) =
      .add (regToValue i.machineModeBits (memOf i o).base)
           (.constInt i.machineModeBits (i.machineModeBits / 8) false)
    ∧ linearAddress i o =
        .add (.add (memBaseValue i (memOf i o))
                   (.mul (regToValue i.machineModeBits (memOf i o).index)
                         (.constInt i.machineModeBits (memOf i o).scale true)))
             (memDispValue i (memOf i o))
    ∧ (i.machineModeBits = 64 →
        memBaseValue i (memOf i o) =
          .add (regToValue 64 (memOf i o).base) (.constInt 64 8 false)) := by
  obtain ⟨hb1, hb2⟩ := largest_rsp _ hs
  refine ⟨?_, ?_, ?_⟩
  · simp [memBaseValue, hc, hs]
  · simp [linearAddress, hb1, hb2]
  · intro h64
    simp [memBaseValue, hc, hs, h64]

/-- C7 witness: `POP [RSP]` at address width 64 uses the stack-pointer
value plus 8 as the base. -/
theorem c7_witness :
    popInstr.iclass = .POP ∧
    (memOf popInstr popOp).base.largestEnclosing = .RSP ∧
    memBaseValue popInstr (memOf popInstr popOp) =
      .add (regToValue 64 (memOf popInstr popOp).base) (.constInt 64 8 false) :=
  ⟨rfl, rfl, (c7_pop_stack_pointer_bump popInstr popOp rfl rfl).2.2 rfl⟩


/-! ### Claim C8 -/

theorem segCount_regToValue (w : Nat) (r : Reg) :
    segCount (regToValue w r) = 0 := by
  unfold regToValue
  split_ifs <;> simp [segCount]

theorem segCount_memBase (i : Instr) (m : MemRef) :
    segCount (memBaseValue i m) = 0 := by
  unfold memBaseValue
  dsimp only
  split_ifs <;> simp [segCount, segCount_regToValue]

theorem segCount_memDisp (i : Instr) (m : MemRef) :
    segCount (memDispValue i m) = 0 := by
  unfold memDispValue
  dsimp only
  split_ifs <;> simp [segCount]

theorem segCount_linear (i : Instr) (o : Operand) :
    segCount (linearAddress i o) = 0 := by
  unfold linearAddress
  dsimp only
  split_ifs <;>
    simp [segCount, segCount_regToValue, segCount_memBase, segCount_memDisp]

/-- C8: the computed address is routed through the segmented-address
helper exactly when the address-space tag is non-zero; the tag is 256
for a GS override, 257 for FS, 0 otherwise, and an
address-generation-only operand always receives tag 0. -/
theorem c8_segment_routing :
    (∀ (i : Instr) (o : Operand),
        segCount (liftMemoryAddr i o) =
          (if AddressSpace (memOf i o).seg o.name = 0 then 0 else 1)
      ∧ (AddressSpace (memOf i o).seg o.name ≠ 0 →
          liftMemoryAddr i o =
            .segAddr (AddressSpace (memOf i o).seg o.name) (linearAddress i o))
      ∧ (AddressSpace (memOf i o).seg o.name = 0 →
          liftMemoryAddr i o = linearAddress i o))
    ∧ (∀ (s : Reg) (n : OpName), n ≠ .AGEN →
        ((AddressSpace s n = 256 ↔ s = .GS) ∧
         (AddressSpace s n = 257 ↔ s = .FS) ∧
         (s ≠ .GS → s ≠ .FS → AddressSpace s n = 0)))
    ∧ (∀ s : Reg, AddressSpace s .AGEN = 0) := by
  refine ⟨?_, ?_, ?_⟩
  · intro i o
    refine ⟨?_, ?_, ?_⟩
    · unfold liftMemoryAddr
      by_cases hz : AddressSpace (memOf i o).seg o.name = 0
      · simp [hz, segCount_linear]
      · simp [hz, segCount, segCount_linear]
    · intro hnz
      simp [liftMemoryAddr, hnz]
    · intro hz
      simp [liftMemoryAddr, hz]
  · intro s n hn
    unfold AddressSpace
    by_cases hg : s = .GS <;> by_cases hf : s = .FS <;> simp_all
  · intro s
    rfl

/-- C8 witness: `segInstr`'s GS-overridden memory operand routes
through the helper with tag 256, while an address-generation operand
of the same instruction receives tag 0 and no routing. -/
theorem c8_witness :
    AddressSpace (memOf segInstr popOp).seg popOp.name = 256 ∧
    liftMemoryAddr segInstr popOp =
      .segAddr 256 (linearAddress segInstr popOp) ∧
    AddressSpace (memOf segInstr agenOp).seg agenOp.name = 0 ∧
    liftMemoryAddr segInstr agenOp = linearAddress segInstr agenOp := by
  refine ⟨rfl, ?_, rfl, ?_⟩
  · exact (c8_segment_routing.1 segInstr popOp).2.1 (by decide)
  · exact (c8_segment_routing.1 segInstr agenOp).2.2 rfl


/-! ### Claim C9 (corrected) -/

/-- C9 counterexample: lifting `badPCInstr` (an indirect jump whose
effective address width is 8) resolves the program-counter register
name, yet completes successfully with a logged (recoverable) error and
the empty register name; it is not a fatal contract violation. -/
theorem c9_counterexample :
    badPCInstr.effAddrWidth = 8 ∧
    PCRegName badPCInstr = ("", [.logError "Unexpected address width."]) ∧
    LiftIntoBlock cfg0 badPCInstr = .ok badPCResult ∧
    (∀ msg : String, LiftIntoBlock cfg0 badPCInstr ≠ .error msg) := by
  refine ⟨rfl, rfl, rfl, ?_⟩
  intro msg h
  rw [show LiftIntoBlock cfg0 badPCInstr = .ok badPCResult from rfl] at h
  exact Except.noConfusion h

/-- C9 (amended): resolving the program-counter register name for an
instruction whose effective address width is not 64, 32 or 16 logs a
non-fatal error and yields the empty register name; lifting
continues. -/
theorem c9_pc_name_logged_error (i : Instr) (h64 : i.effAddrWidth ≠ 64)
    (h32 : i.effAddrWidth ≠ 32) (h16 : i.effAddrWidth ≠ 16) :
    PCRegName i = ("", [.logError "Unexpected address width."]) := by
  unfold PCRegName
  simp [h64, h32, h16]

/-- C9 witness: width 8 yields the empty name plus the logged
error. -/
theorem c9_witness :
    badPCInstr.effAddrWidth ≠ 64 ∧
    PCRegName badPCInstr = ("", [.logError "Unexpected address width."]) :=
  ⟨by decide, c9_pc_name_logged_error badPCInstr (by decide) (by decide) (by decide)⟩

end McSemaX86

namespace RemillMask

theorem nthGo_eq_nthIndexGo (val : Bool) (n : Int) :
    ∀ (l : List Bool) (i : Nat) (c : Int),
      nthGo val n l i c = nthIndexGo val n l i c := by
  intro l
  induction l with
  | nil => intro i c; rfl
  | cons b rest ih =>
    intro i c
    unfold nthGo nthIndexGo
    by_cases hb : b = val
    · by_cases he : c + 1 = n
      · simp [hb, he]
      · simp [hb, he, ih]
    · simp [hb, ih]

theorem nthGo_spec (val : Bool) (n : Int) :
    ∀ (l : List Bool) (i : Nat) (c : Int), 0 ≤ n → c + 1 ≤ n →
      nthGo val n l i c =
        ((matchIndices val l)[(n - c - 1).toNat]?).map (· + i) := by
  intro l
  induction l with
  | nil =>
    intro i c h0 hc
    simp [nthGo, matchIndices]
  | cons b rest ih =>
    intro i c h0 hc
    by_cases hb : b = val
    · by_cases he : c + 1 = n
      · have ht : (n - c - 1).toNat = 0 := by omega
        rw [nthGo, if_pos hb, if_pos he]
        simp [matchIndices, hb, ht]
      · have hc2 : c + 1 + 1 ≤ n := by omega
        have ht : (n - c - 1).toNat = (n - (c + 1) - 1).toNat + 1 := by omega
        rw [nthGo, if_pos hb, if_neg he, ih (i + 1) (c + 1) h0 hc2]
        simp only [matchIndices, hb, if_pos, List.singleton_append, ht,
          List.getElem?_cons_succ, List.getElem?_map]
        cases h : (matchIndices val rest)[(n - (c + 1) - 1).toNat]? <;> simp [h]
        omega
    · rw [nthGo, if_neg hb, ih (i + 1) c h0 hc]
      simp only [matchIndices, hb, if_neg, Bool.false_eq_true,
        not_false_eq_true, List.nil_append, List.getElem?_map]
      cases h : (matchIndices val rest)[(n - c - 1).toNat]? <;> simp [h]
      omega

theorem mem_matchIndices (val : Bool) :
    ∀ (l : List Bool) (k : Nat), k ∈ matchIndices val l ↔ l[k]? = some val := by
  intro l
  induction l with
  | nil => intro k; simp [matchIndices]
  | cons b rest ih =>
    intro k
    cases k with
    | zero =>
      by_cases hb : b = val <;> simp [matchIndices, hb]
    | succ k =>
      by_cases hb : b = val <;> simp [matchIndices, hb, ih]

/-! ### Claim C10 -/

/-- C10: `GMask::Nth(n, val)` returns some index i if and only if the
standalone `NthIndex(mask, val, n, offset)` returns true with offset
set to i, namely the zero-based n-th index whose element equals `val`;
both return no result for negative n, and `NthIndex` leaves `offset`
unchanged on failure. -/
theorem c10_nth_equiv_nthIndex (mask : List Bool) (val : Bool) (n : Int) (offset : Nat) :
    (∀ i : Nat, GMaskNth mask n val = some i ↔
        NthIndex mask val n offset = (true, i))
    ∧ (0 ≤ n → GMaskNth mask n val = (matchIndices val mask)[n.toNat]?)
    ∧ (∀ k : Nat, k ∈ matchIndices val mask ↔ mask[k]? = some val)
    ∧ (n < 0 → GMaskNth mask n val = none ∧
        NthIndex mask val n offset = (false, offset))
    ∧ ((NthIndex mask val n offset).1 = false →
        (NthIndex mask val n offset).2 = offset) := by
  refine ⟨?_, ?_, ?_, ?_, ?_⟩
  · intro i
    by_cases hn : n < 0
    · simp [GMaskNth, NthIndex, hn]
    · cases hgo : nthGo val n mask 0 (-1) with
      | none =>
        rw [nthGo_eq_nthIndexGo] at hgo
        simp [GMaskNth, NthIndex, hn, nthGo_eq_nthIndexGo, hgo]
      | some j =>
        rw [nthGo_eq_nthIndexGo] at hgo
        simp [GMaskNth, NthIndex, hn, nthGo_eq_nthIndexGo, hgo, eq_comm]
  · intro h0
    have hgo := nthGo_spec val n mask 0 (-1) h0 (by omega)
    rw [show n - (-1) - 1 = n from by ring] at hgo
    cases h : (matchIndices val mask)[n.toNat]? with
    | none =>
      rw [h] at hgo
      simp only [Option.map_none'] at hgo
      simp [GMaskNth, not_lt.mpr h0, hgo]
    | some j =>
      rw [h] at hgo
      simp at hgo
      simp [GMaskNth, not_lt.mpr h0, hgo]
  · exact mem_matchIndices val mask
  · intro hn
    simp [GMaskNth, NthIndex, hn]
  · by_cases hn : n < 0
    · simp [NthIndex, hn]
    · cases hgo : nthIndexGo val n mask 0 (-1) with
      | none => simp [NthIndex, hn, hgo]
      | some j => simp [NthIndex, hn, hgo]

/-- C10 witness: on the mask [false, true, true] the 1st (zero-based)
true index is 2, agreed by both `GMask::Nth` and `NthIndex`; a failing
search (n = 5) preserves the offset 7. -/
theorem c10_witness :
    (GMaskNth [false, true, true] 1 true = some 2 ↔
      NthIndex [false, true, true] true 1 7 = (true, 2)) ∧
    GMaskNth [false, true, true] 1 true = some 2 ∧
    ((NthIndex [false, true, true] true 5 7).1 = false →
      (NthIndex [false, true, true] true 5 7).2 = 7) :=
  ⟨(c10_nth_equiv_nthIndex [false, true, true] true 1 7).1 2, by decide,
   (c10_nth_equiv_nthIndex [false, true, true] true 5 7).2.2.2.2⟩

end RemillMask
